import Mathlib

/-!
Verification of the rekall coordinate-descent tuner
(`src/rekallpy/rekall/tuner/coordinate_descent.py`), shallowly embedded
together with the Tuner base-class contract it builds on.  Parameter
values and scores are modelled as rationals, Python dict mutation as
functional update, and the stateful `self.cost` / best-result tracking
as explicit state passing.
-/

namespace Rekall

/-- A configuration assigns a (rational-valued) setting to every
parameter name, modelling the Python dict `config`. -/
abbrev Config : Type := String → ℚ

/-- `config[k] = v`: Python dict assignment on a configuration. -/
def setParam (config : Config) (k : String) (v : ℚ) : Config :=
  fun key => if key = k then v else config key

/-- Models the empty dict `config = \x7b\x7d` built by the initializer.  A key
that is never assigned keeps the default `0`; in the source, reading such
a key would raise `KeyError`, and no theorem below reads an unassigned
key. -/
def zeroConfig : Config := fun _ => 0

/-- One entry of the search space (§3, §6): a Python list of discrete
candidate values, a dict carrying `range: [min, max]`, a dict without a
`range` key, or a value of any other shape. -/
inductive ParamSpec : Type
  | discrete (choices : List ℚ)
  | range (minval maxval : ℚ)
  | dictNoRange
  | otherShape

/-- The parameter is a continuous-range entry. -/
def ParamSpec.isRange : ParamSpec → Bool
  | ParamSpec.range _ _ => true
  | _ => false

/-- The parameter's shape is neither a list nor a dict with `range`:
the shapes the continuous-vs-discrete dispatch does not recognize. -/
def ParamSpec.isUnrecognized : ParamSpec → Bool
  | ParamSpec.dictNoRange => true
  | ParamSpec.otherShape => true
  | _ => false

/-- `self.search_space[k]`: dictionary lookup.  The default branch models
a key absent from the search space (where the source would raise
`KeyError`); every use below looks the keys of the search space itself
up, so the default is never exercised by a faithful run. -/
def lookupParam (space : List (String × ParamSpec)) (k : String) : ParamSpec :=
  match space.lookup k with
  | some p => p
  | none => ParamSpec.otherShape

/-- The tuner's construction-time data (base-class fields, §4.1): search
space, evaluation budget, optimization direction, and the user-supplied
scoring callback. -/
structure Tuner where
  search_space : List (String × ParamSpec)
  budget : ℕ
  maximize : Bool
  score_fn : Config → ℚ

/-- Mutable base-class state during one `tune` call, together with two
ghost fields: `trace` lists every evaluation issued, in order, and
`subStarts` records the value of `cost` at the moment each
per-coordinate sub-search (discrete sweep or line search) is entered.
The ghost fields record observations only and influence nothing. -/
structure TunerState where
  cost : ℕ
  best : Option (Config × ℚ)
  trace : List (Config × ℚ)
  subStarts : List ℕ

/-- The state the base `tune` entry point sets up: `cost = 0`,
`best = None` (§4.1). -/
def initState : TunerState := ⟨0, none, [], []⟩

/-- `score` strictly improves on `old` under the optimization direction:
`(self.maximize and score > old) or (not self.maximize and score < old)`. -/
def improves (maximize : Bool) (score old : ℚ) : Prop :=
  (maximize = true ∧ old < score) ∨ (maximize = false ∧ score < old)

instance improvesDec (m : Bool) (s c : ℚ) : Decidable (improves m s c) := by
  unfold improves
  infer_instance

/-- `score` is strictly worse than `cur_score` under the optimization
direction: `(self.maximize and score < cur_score) or
(not self.maximize and score > cur_score)` (lines 42, 52, 68). -/
def worse (maximize : Bool) (score cur_score : ℚ) : Prop :=
  (maximize = true ∧ score < cur_score) ∨ (maximize = false ∧ cur_score < score)

instance worseDec (m : Bool) (s c : ℚ) : Decidable (worse m s c) := by
  unfold worse
  infer_instance

/-- One step of best-result tracking: replace the tracked best when the
new evaluation strictly improves on it. -/
def bestStep (maximize : Bool) (b : Option (Config × ℚ)) (e : Config × ℚ) :
    Option (Config × ℚ) :=
  match b with
  | none => some e
  | some (bc, bs) => if improves maximize e.2 bs then some e else some (bc, bs)

/-- The tracked best after a sequence of evaluations, starting from
`best = None`. -/
def trackedBest (maximize : Bool) (l : List (Config × ℚ)) : Option (Config × ℚ) :=
  l.foldl (bestStep maximize) none

/-- Modelled from the spec: `Tuner.evaluate_config` (§4.1) — the Tuner
base class is not under `src/`.  It invokes the scoring callback,
increments `cost` by one, replaces the tracked best when the new score
strictly improves on it, and returns the raw score. -/
def evaluate_config (t : Tuner) (config : Config) (s : TunerState) : ℚ × TunerState :=
  let score := t.score_fn config
  (score, ⟨s.cost + 1, bestStep t.maximize s.best (config, score),
           s.trace ++ [(config, score)], s.subStarts⟩)

/-- Ghost bookkeeping: record the current cost as the start of a
per-coordinate sub-search. -/
def pushStart (s : TunerState) : TunerState :=
  ⟨s.cost, s.best, s.trace, s.subStarts ++ [s.cost]⟩

/-- What `line_search` hands back: the returned pair
`(cur_val, prev_score)` plus the configuration and tuner state it
leaves behind. -/
structure LSResult where
  val : ℚ
  score : ℚ
  config : Config
  state : TunerState

/-- The `while local_cost < budget` extension loop of `line_search`
(lines 58–73).  `fuel` stands for `budget - local_cost`, consumed as
`local_cost` is incremented by each evaluation, so the loop guard
`local_cost < budget` becomes `fuel > 0`. -/
def line_search_loop (t : Tuner) (cur_param : String)
    (minval maxval delta cur_score : ℚ) :
    ℕ → ℚ → ℚ → Config → TunerState → LSResult
  | 0, cur_val, prev_score, config, s => ⟨cur_val, prev_score, config, s⟩
  | fuel + 1, cur_val, prev_score, config, s =>
    if cur_val + delta > maxval ∨ cur_val + delta < minval then
      ⟨cur_val, prev_score, config, s⟩
    else
      let cur_val2 := cur_val + delta
      let config2 := setParam config cur_param cur_val2
      let r := evaluate_config t config2 s
      if worse t.maximize r.1 cur_score then
        ⟨cur_val2 - delta, prev_score, config2, r.2⟩
      else
        line_search_loop t cur_param minval maxval delta cur_score fuel
          cur_val2 r.1 config2 r.2

/-- `self.search_space[cur_param]['range']` (line 25).  On a parameter
that is not a range dict the source raises; the `(0, 0)` default is
never exercised, because `tune_impl` calls `line_search` only on range
parameters and every theorem about `line_search` assumes one. -/
def getRange : ParamSpec → ℚ × ℚ
  | ParamSpec.range mn mx => (mn, mx)
  | _ => (0, 0)

/-- `CoordinateDescentTuner.line_search` (lines 8–75) in state-passing
form: two direction probes followed by the extension loop. -/
def line_search (t : Tuner) (config : Config) (cur_param : String)
    (epsilon : ℚ) (budget : ℕ) (cur_score : ℚ) (s : TunerState) : LSResult :=
  let mm := getRange (lookupParam t.search_space cur_param)
  let minval := mm.1
  let maxval := mm.2
  let Y := maxval - minval
  let delta := epsilon * Y
  let orig_val := config cur_param
  if orig_val + delta > maxval ∧ orig_val - delta < minval then
    ⟨orig_val, cur_score, config, s⟩
  else
    let cur_val := orig_val + delta
    let config1 := setParam config cur_param cur_val
    let r1 := evaluate_config t config1 s
    if worse t.maximize r1.1 cur_score then
      let delta2 := -delta
      let cur_val2 := orig_val + delta2
      let config2 := setParam config1 cur_param cur_val2
      let r2 := evaluate_config t config2 r1.2
      if worse t.maximize r2.1 cur_score then
        ⟨orig_val, cur_score, config2, r2.2⟩
      else
        line_search_loop t cur_param minval maxval delta2 cur_score
          (budget - 2) cur_val2 r2.1 config2 r2.2
    else
      line_search_loop t cur_param minval maxval delta cur_score
        (budget - 1) cur_val r1.1 config1 r1.2

/-- Result of the exhaustive loop over a discrete parameter's
candidates. -/
structure DSResult where
  best_choice : ℚ
  max_score : ℚ
  config : Config
  state : TunerState

/-- The `for choice in param` loop of the discrete branch
(lines 148–158): every choice other than the current value is evaluated
and the strictly best score seen is kept. -/
def discrete_sweep (t : Tuner) (coordinate : String) (orig_val : ℚ) :
    List ℚ → ℚ → ℚ → Config → TunerState → DSResult
  | [], best_choice, max_score, config, s => ⟨best_choice, max_score, config, s⟩
  | choice :: rest, best_choice, max_score, config, s =>
    if choice = orig_val then
      discrete_sweep t coordinate orig_val rest best_choice max_score config s
    else
      let config2 := setParam config coordinate choice
      let r := evaluate_config t config2 s
      if improves t.maximize r.1 max_score then
        discrete_sweep t coordinate orig_val rest choice r.1 config2 r.2
      else
        discrete_sweep t coordinate orig_val rest best_choice max_score config2 r.2

/-- Result of one coordinate step, or of one full round, of the sweep. -/
structure SweepResult where
  config : Config
  cur_score : ℚ
  changed : Bool
  state : TunerState

/-- The body of `for coordinate in coordinates` (lines 140–175): read the
current value, then dispatch on the parameter's shape — exhaustive sweep
for a list, `line_search` with sub-budget `10` for a dict with `range`,
and silently no operation for any other shape (the source's `if`/`elif`
chain has no `else` branch). -/
def sweep_coordinate (t : Tuner) (alpha : ℚ) (coordinate : String)
    (config : Config) (cur_score : ℚ) (changed : Bool) (s : TunerState) :
    SweepResult :=
  let orig_val := config coordinate
  match lookupParam t.search_space coordinate with
  | ParamSpec.discrete choices =>
    let r := discrete_sweep t coordinate orig_val choices orig_val cur_score
      config (pushStart s)
    ⟨setParam r.config coordinate r.best_choice, r.max_score,
     if r.best_choice ≠ orig_val then true else changed, r.state⟩
  | ParamSpec.range _ _ =>
    let r := line_search t config coordinate alpha 10 cur_score (pushStart s)
    ⟨setParam r.config coordinate r.val, r.score,
     if r.val ≠ orig_val then true else changed, r.state⟩
  | ParamSpec.dictNoRange => ⟨config, cur_score, changed, s⟩
  | ParamSpec.otherShape => ⟨config, cur_score, changed, s⟩

/-- One round over all coordinates (lines 137–175), aborted as soon as
`self.cost > self.budget` — note the strict comparison. -/
def sweep_round (t : Tuner) (alpha : ℚ) :
    List String → Config → ℚ → Bool → TunerState → SweepResult
  | [], config, cur_score, changed, s => ⟨config, cur_score, changed, s⟩
  | c :: rest, config, cur_score, changed, s =>
    if s.cost > t.budget then ⟨config, cur_score, changed, s⟩
    else
      let r := sweep_coordinate t alpha c config cur_score changed s
      sweep_round t alpha rest r.config r.cur_score r.changed r.state

/-- Result of the outer loop: the final local variables of `tune_impl`
plus the final tuner state. -/
structure LoopResult where
  config : Config
  cur_score : ℚ
  alpha : ℚ
  state : TunerState

/-- The outer `while self.cost < self.budget` loop (lines 134–182),
including the `alpha *= decay_rate` shrink and the `alpha < .000001`
convergence break after an unchanged round.  `fuel` bounds the number of
rounds; every terminating run of the source is reproduced by any
sufficiently large `fuel`. -/
def tune_loop (t : Tuner) (coordinates : List String) (decay_rate : ℚ) :
    ℕ → ℚ → Config → ℚ → TunerState → LoopResult
  | 0, alpha, config, cur_score, s => ⟨config, cur_score, alpha, s⟩
  | fuel + 1, alpha, config, cur_score, s =>
    if s.cost < t.budget then
      let r := sweep_round t alpha coordinates config cur_score false s
      if r.changed then
        tune_loop t coordinates decay_rate fuel alpha r.config r.cur_score r.state
      else
        let alpha2 := alpha * decay_rate
        if alpha2 < 1 / 1000000 then ⟨r.config, r.cur_score, alpha2, r.state⟩
        else tune_loop t coordinates decay_rate fuel alpha2 r.config r.cur_score r.state
    else ⟨config, cur_score, alpha, s⟩

/-- Byte-wise lexicographic `<` on character lists, structurally
recursive so that it evaluates on literals. -/
def lexLt : List Char → List Char → Bool
  | [], [] => false
  | [], _ :: _ => true
  | _ :: _, [] => false
  | a :: as, b :: bs => if a = b then lexLt as bs else decide (a.val < b.val)

/-- Lexicographic `<` on strings, agreeing with Python's ordering of the
parameter names. -/
def strLt (a b : String) : Bool := lexLt a.toList b.toList

/-- Insert a string into a sorted list. -/
def insertSorted (a : String) : List String → List String
  | [] => [a]
  | b :: l => if strLt b a then b :: insertSorted a l else a :: b :: l

/-- `sorted(list(self.search_space.keys()))` (line 107): deterministic
lexicographic ordering of the coordinates, as an insertion sort. -/
def sortKeys : List String → List String
  | [] => []
  | a :: l => insertSorted a (sortKeys l)

/-- Failure of the `'average'` initializer: the discrete branch
`config[k] = param[0]` (line 123) reads the name `k`, which is not in
scope there, so the source raises `NameError` at run time. -/
inductive InitError : Type
  | nameError

/-- The `'average'` initialization loop (lines 110–123): a dict with
`range` gets its midpoint `(maxval + minval) / 2`, a dict without
`range` is skipped (its key is never assigned), a list parameter reaches
the out-of-scope name `k` and fails, and any other shape falls through
both `isinstance` tests. -/
def averageInit (space : List (String × ParamSpec)) :
    List String → Config → Except InitError Config
  | [], config => Except.ok config
  | c :: rest, config =>
    match lookupParam space c with
    | ParamSpec.range mn mx =>
      averageInit space rest (setParam config c ((mx + mn) / 2))
    | ParamSpec.dictNoRange => averageInit space rest config
    | ParamSpec.discrete _ => Except.error InitError.nameError
    | ParamSpec.otherShape => averageInit space rest config

/-- The recognized keyword arguments of `tune_impl` (§6); `none` models
an absent key in `kwargs`. -/
structure TuneOptions where
  alpha : Option ℚ
  decay_rate : Option ℚ
  init_method : Option String

/-- What one call to `tune_impl` does, as observed by its caller.  The
source returns `None` in every case; the constructors additionally
record which diagnostic was printed before the early return (lines
95–97 and 126–128), or that the initializer raised `NameError`
(line 123), and `finished` records the final local variables of a
completed search. -/
inductive TuneOutcome : Type
  | missingParams
  | invalidInitMethod (m : String)
  | initNameError
  | finished (config : Config) (cur_score : ℚ) (alpha : ℚ)

/-- The call ran the search to completion (no early abort). -/
def TuneOutcome.isFinished : TuneOutcome → Bool
  | TuneOutcome.finished _ _ _ => true
  | _ => false

/-- The call aborted with one of the printed fatal-configuration
diagnostics. -/
def TuneOutcome.isConfigError : TuneOutcome → Bool
  | TuneOutcome.missingParams => true
  | TuneOutcome.invalidInitMethod _ => true
  | _ => false

/-- Outcome and final state of one `tune_impl` (or `tune`) call. -/
structure TuneResult where
  outcome : TuneOutcome
  state : TunerState

/-- `CoordinateDescentTuner.tune_impl` (lines 77–182).  `sample` stands
for the configuration drawn by `RandomTuner.generate_configs(search_space, 1)[0]`
(modelled from the spec §4.2: the random tuner is not under `src/`, so
its draw is supplied as a parameter); it is consumed only on the
`'random'` path.  The source compares `init_method` with `is`; for the
interned string literals involved that behaves as string equality, which
is how it is modelled. -/
def tune_impl (t : Tuner) (opts : TuneOptions) (sample : Config) (fuel : ℕ)
    (s : TunerState) : TuneResult :=
  match opts.alpha, opts.decay_rate with
  | some alpha, some decay_rate =>
    let init_method := opts.init_method.getD "average"
    let coordinates := sortKeys (t.search_space.map Prod.fst)
    if init_method = "average" then
      match averageInit t.search_space coordinates zeroConfig with
      | Except.error _ => ⟨TuneOutcome.initNameError, s⟩
      | Except.ok config =>
        let r := evaluate_config t config s
        let fin := tune_loop t coordinates decay_rate fuel alpha config r.1 r.2
        ⟨TuneOutcome.finished fin.config fin.cur_score fin.alpha, fin.state⟩
    else if init_method = "random" then
      let r := evaluate_config t sample s
      let fin := tune_loop t coordinates decay_rate fuel alpha sample r.1 r.2
      ⟨TuneOutcome.finished fin.config fin.cur_score fin.alpha, fin.state⟩
    else ⟨TuneOutcome.invalidInitMethod init_method, s⟩
  | _, _ => ⟨TuneOutcome.missingParams, s⟩

/-- Modelled from the spec: the base-class `tune` entry point (§4.1, not
under `src/`) only resets the shared state (`cost = 0`, `best = None`)
and delegates to `tune_impl`. -/
def tune (t : Tuner) (opts : TuneOptions) (sample : Config) (fuel : ℕ) :
    TuneResult :=
  tune_impl t opts sample fuel initState

/-- Modelled from the spec: the (configuration, score) pair the caller
receives from `tune` — the tracked best read off the final state
(§4.1, §6). -/
def tune_return (t : Tuner) (opts : TuneOptions) (sample : Config) (fuel : ℕ) :
    Option (Config × ℚ) :=
  (tune t opts sample fuel).state.best

/-! ### State predicates used by the invariance arguments -/

/-- `P` is preserved by every evaluation issued by tuner `t`. -/
def ECClosed (t : Tuner) (P : TunerState → Prop) : Prop :=
  ∀ (c : Config) (s : TunerState), P s → P (evaluate_config t c s).2

/-- After the warm-up evaluation: the `best` field is exactly the
best-tracking fold over the evaluation trace, and it is populated. -/
def TrackInv (t : Tuner) (s : TunerState) : Prop :=
  s.best = trackedBest t.maximize s.trace ∧ s.best.isSome = true

/-! ### Concrete instances used to evaluate the code on explicit inputs -/

/-- One continuous coordinate `x` over `[0, 10]`, scored by the constant
function `0`, maximizing. -/
def tLin : Tuner := ⟨[("x", ParamSpec.range 0 10)], 10, true, fun _ => 0⟩

/-- A configuration with `x = 9`, close to the upper boundary. -/
def cfgNine : Config := fun _ => 9

/-- One continuous coordinate `x` over `[0, 10]`, scored by the constant
function `-1`, maximizing: against `cur_score = 0` every probe looks
worse. -/
def tBad : Tuner := ⟨[("x", ParamSpec.range 0 10)], 10, true, fun _ => -1⟩

/-- A configuration with `x = 5`, the midpoint. -/
def cfgFive : Config := fun _ => 5

/-- Scoring function that only likes the exact midpoint configuration
`a = 5, b = 5`: every deviation scores `-1` against its `0`. -/
def fMid : Config → ℚ := fun c => if c "a" = 5 ∧ c "b" = 5 then 0 else -1

/-- Two continuous coordinates over `[0, 10]` with budget `3` and the
midpoint-loving score: the initial evaluation costs 1, the sub-search on
`a` costs 2 more (both probes fail), leaving `cost = 3 = budget` exactly
when the sub-search on `b` begins. -/
def tBudget : Tuner :=
  ⟨[("a", ParamSpec.range 0 10), ("b", ParamSpec.range 0 10)], 3, true, fMid⟩

/-- Options with `alpha = 1/10`, `decay_rate = 1/2`, default
`init_method`. -/
def optsBudget : TuneOptions := ⟨some (1/10), some (1/2), none⟩

/-- One continuous coordinate over `[0, 1]`, budget `0`, constant score. -/
def tTiny : Tuner := ⟨[("x", ParamSpec.range 0 1)], 0, true, fun _ => 0⟩

/-- Options with `alpha = 1`, `decay_rate = 1/2`, default `init_method`. -/
def optsTiny : TuneOptions := ⟨some 1, some (1/2), none⟩

/-- Options missing `alpha`. -/
def optsNoAlpha : TuneOptions := ⟨none, some (1/2), none⟩

/-- A search space holding a discrete (list) parameter next to a
continuous one. -/
def tMixed : Tuner :=
  ⟨[("d", ParamSpec.discrete [1, 2]), ("x", ParamSpec.range 0 1)], 5, true, fun _ => 0⟩

/-- Options with `alpha` and `decay_rate` present and the default
(`'average'`) initializer. -/
def optsMixed : TuneOptions := ⟨some (1/2), some (1/2), none⟩

/-- A search space whose only parameter is a dict without `range`. -/
def tNoRange : Tuner := ⟨[("p", ParamSpec.dictNoRange)], 5, true, fun _ => 0⟩

/-- A search space whose only parameter has a shape that is neither a
list nor a dict. -/
def tOtherShape : Tuner := ⟨[("q", ParamSpec.otherShape)], 5, true, fun _ => 0⟩

/-! ### Elementary facts about single steps -/

theorem setParam_self (config : Config) (k : String) (v : ℚ) :
    setParam config k v k = v := by
  simp [setParam]

theorem setParam_other (config : Config) (k p : String) (v : ℚ) (h : k ≠ p) :
    setParam config p v k = config k := by
  simp [setParam, h]

theorem evaluate_config_cost (t : Tuner) (c : Config) (s : TunerState) :
    ((evaluate_config t c s).2).cost = s.cost + 1 := rfl

theorem trackedBest_append (m : Bool) (l : List (Config × ℚ)) (e : Config × ℚ) :
    trackedBest m (l ++ [e]) = bestStep m (trackedBest m l) e := by
  simp [trackedBest, List.foldl_append]

theorem bestStep_isSome (m : Bool) (b : Option (Config × ℚ)) (e : Config × ℚ) :
    (bestStep m b e).isSome = true := by
  unfold bestStep
  match b with
  | none => rfl
  | some (bc, bs) =>
    dsimp only
    split <;> rfl

/-- `worse` never holds between a score and itself. -/
theorem not_worse_self (m : Bool) (c : ℚ) : ¬ worse m c c := by
  unfold worse
  rintro (⟨_, hlt⟩ | ⟨_, hlt⟩) <;> exact lt_irrefl _ hlt

theorem not_worse_spec (m : Bool) (a b : ℚ) (h : ¬ worse m a b) :
    (m = true → b ≤ a) ∧ (m = false → a ≤ b) := by
  unfold worse at h
  push_neg at h
  exact ⟨h.1, h.2⟩

/-! ### Generic preservation of evaluation-closed state predicates

Every function of the algorithm touches the tuner state only through
`evaluate_config` and (for the two sub-search branches) `pushStart`, so
any predicate closed under those steps survives the whole pipeline. -/

theorem line_search_loop_pres (t : Tuner) (P : TunerState → Prop)
    (hP : ECClosed t P) (p : String) (mn mx d cs : ℚ) :
    ∀ (fuel : ℕ) (cv ps : ℚ) (cfg : Config) (s : TunerState), P s →
      P (line_search_loop t p mn mx d cs fuel cv ps cfg s).state := by
  intro fuel
  induction fuel with
  | zero => intro cv ps cfg s h; exact h
  | succ n ih =>
    intro cv ps cfg s h
    simp only [line_search_loop]
    split
    · exact h
    · split
      · exact hP _ _ h
      · exact ih _ _ _ _ (hP _ _ h)

theorem line_search_pres (t : Tuner) (P : TunerState → Prop) (hP : ECClosed t P)
    (cfg : Config) (p : String) (eps : ℚ) (b : ℕ) (cs : ℚ) (s : TunerState)
    (h : P s) : P (line_search t cfg p eps b cs s).state := by
  simp only [line_search]
  split
  · exact h
  · split
    · split
      · exact hP _ _ (hP _ _ h)
      · exact line_search_loop_pres t P hP _ _ _ _ _ _ _ _ _ _ (hP _ _ (hP _ _ h))
    · exact line_search_loop_pres t P hP _ _ _ _ _ _ _ _ _ _ (hP _ _ h)

theorem discrete_sweep_pres (t : Tuner) (P : TunerState → Prop)
    (hP : ECClosed t P) (c : String) (ov : ℚ) :
    ∀ (choices : List ℚ) (bc ms : ℚ) (cfg : Config) (s : TunerState), P s →
      P (discrete_sweep t c ov choices bc ms cfg s).state := by
  intro choices
  induction choices with
  | nil => intro bc ms cfg s h; exact h
  | cons ch rest ih =>
    intro bc ms cfg s h
    simp only [discrete_sweep]
    split
    · exact ih _ _ _ _ h
    · split
      · exact ih _ _ _ _ (hP _ _ h)
      · exact ih _ _ _ _ (hP _ _ h)

theorem sweep_coordinate_pres (t : Tuner) (P : TunerState → Prop)
    (hP : ECClosed t P) (a : ℚ) (c : String) (cfg : Config) (cs : ℚ) (ch : Bool)
    (s : TunerState) (h : P s) (hpush : P (pushStart s)) :
    P (sweep_coordinate t a c cfg cs ch s).state := by
  simp only [sweep_coordinate]
  split
  · exact discrete_sweep_pres t P hP _ _ _ _ _ _ _ hpush
  · exact line_search_pres t P hP _ _ _ _ _ _ hpush
  · exact h
  · exact h

theorem sweep_round_pres (t : Tuner) (P : TunerState → Prop) (hP : ECClosed t P)
    (hpush : ∀ s : TunerState, s.cost ≤ t.budget → P s → P (pushStart s)) (a : ℚ) :
    ∀ (l : List String) (cfg : Config) (cs : ℚ) (ch : Bool) (s : TunerState),
      P s → P (sweep_round t a l cfg cs ch s).state := by
  intro l
  induction l with
  | nil => intro cfg cs ch s h; exact h
  | cons c rest ih =>
    intro cfg cs ch s h
    simp only [sweep_round]
    split
    · exact h
    · next hc =>
      exact ih _ _ _ _
        (sweep_coordinate_pres t P hP a c cfg cs ch s h
          (hpush s (Nat.not_lt.mp hc) h))

theorem tune_loop_pres (t : Tuner) (P : TunerState → Prop) (hP : ECClosed t P)
    (hpush : ∀ s : TunerState, s.cost ≤ t.budget → P s → P (pushStart s))
    (coords : List String) (dr : ℚ) :
    ∀ (fuel : ℕ) (a : ℚ) (cfg : Config) (cs : ℚ) (s : TunerState),
      P s → P (tune_loop t coords dr fuel a cfg cs s).state := by
  intro fuel
  induction fuel with
  | zero => intro a cfg cs s h; exact h
  | succ n ih =>
    intro a cfg cs s h
    simp only [tune_loop]
    split
    · split
      · exact ih _ _ _ _ (sweep_round_pres t P hP hpush a coords cfg cs false s h)
      · split
        · exact sweep_round_pres t P hP hpush a coords cfg cs false s h
        · exact ih _ _ _ _ (sweep_round_pres t P hP hpush a coords cfg cs false s h)
    · exact h

/-! ### Evaluation-count bounds -/

theorem line_search_loop_cost (t : Tuner) (p : String) (mn mx d cs : ℚ) :
    ∀ (fuel : ℕ) (cv ps : ℚ) (cfg : Config) (s : TunerState),
      (line_search_loop t p mn mx d cs fuel cv ps cfg s).state.cost ≤ s.cost + fuel := by
  intro fuel
  induction fuel with
  | zero => intro cv ps cfg s; exact Nat.le_add_right _ _
  | succ n ih =>
    intro cv ps cfg s
    simp only [line_search_loop]
    split
    · exact Nat.le_add_right _ _
    · split
      · show ((evaluate_config t _ s).2).cost ≤ s.cost + (n + 1)
        rw [evaluate_config_cost]
        omega
      · calc (line_search_loop t p mn mx d cs n _ _ _ _).state.cost
            ≤ ((evaluate_config t _ s).2).cost + n := ih _ _ _ _
          _ = s.cost + 1 + n := by rw [evaluate_config_cost]
          _ ≤ s.cost + (n + 1) := by omega

/-- `line_search` issues at most `max budget 2` evaluations: the two
direction probes are unconditional, and the extension loop honours the
remaining sub-budget. -/
theorem line_search_cost (t : Tuner) (cfg : Config) (p : String) (eps : ℚ)
    (b : ℕ) (cs : ℚ) (s : TunerState) :
    (line_search t cfg p eps b cs s).state.cost ≤ s.cost + max b 2 := by
  simp only [line_search]
  split
  · show s.cost ≤ s.cost + max b 2
    omega
  · split
    · split
      · show ((evaluate_config t _ (evaluate_config t _ s).2).2).cost ≤ s.cost + max b 2
        rw [evaluate_config_cost, evaluate_config_cost]
        have : 2 ≤ max b 2 := le_max_right _ _
        omega
      · calc (line_search_loop t p _ _ _ cs (b - 2) _ _ _ _).state.cost
            ≤ ((evaluate_config t _ (evaluate_config t _ s).2).2).cost + (b - 2) :=
              line_search_loop_cost t p _ _ _ cs (b - 2) _ _ _ _
          _ = s.cost + 1 + 1 + (b - 2) := by rw [evaluate_config_cost, evaluate_config_cost]
          _ ≤ s.cost + max b 2 := by omega
    · calc (line_search_loop t p _ _ _ cs (b - 1) _ _ _ _).state.cost
          ≤ ((evaluate_config t _ s).2).cost + (b - 1) :=
            line_search_loop_cost t p _ _ _ cs (b - 1) _ _ _ _
        _ = s.cost + 1 + (b - 1) := by rw [evaluate_config_cost]
        _ ≤ s.cost + max b 2 := by omega

theorem lookup_not_discrete (space : List (String × ParamSpec))
    (h : space.all (fun kp => kp.2.isRange) = true) (k : String) (cs : List ℚ) :
    lookupParam space k ≠ ParamSpec.discrete cs := by
  induction space with
  | nil =>
    simp [lookupParam, List.lookup]
  | cons e rest ih =>
    simp only [List.all_cons, Bool.and_eq_true] at h
    cases hbe : k == e.1 with
    | true =>
      simp only [lookupParam, List.lookup, hbe]
      intro hEq
      rw [hEq] at h
      simp [ParamSpec.isRange] at h
    | false =>
      simpa only [lookupParam, List.lookup, hbe] using ih h.2

theorem sweep_coordinate_cost (t : Tuner) (a : ℚ) (c : String) (cfg : Config)
    (cs : ℚ) (ch : Bool) (s : TunerState)
    (h : t.search_space.all (fun kp => kp.2.isRange) = true) :
    (sweep_coordinate t a c cfg cs ch s).state.cost ≤ s.cost + 10 := by
  simp only [sweep_coordinate]
  split
  · next choices heq => exact absurd heq (lookup_not_discrete t.search_space h c choices)
  · have := line_search_cost t cfg c a 10 cs (pushStart s)
    simpa using this
  · show s.cost ≤ s.cost + 10
    omega
  · show s.cost ≤ s.cost + 10
    omega

theorem sweep_round_cost (t : Tuner) (a : ℚ)
    (h : t.search_space.all (fun kp => kp.2.isRange) = true) :
    ∀ (l : List String) (cfg : Config) (cs : ℚ) (ch : Bool) (s : TunerState),
      s.cost ≤ t.budget + 10 →
      (sweep_round t a l cfg cs ch s).state.cost ≤ t.budget + 10 := by
  intro l
  induction l with
  | nil => intro cfg cs ch s hs; exact hs
  | cons c rest ih =>
    intro cfg cs ch s hs
    simp only [sweep_round]
    split
    · exact hs
    · next hc =>
      apply ih
      have hle : s.cost ≤ t.budget := Nat.not_lt.mp hc
      have := sweep_coordinate_cost t a c cfg cs ch s h
      omega

theorem tune_loop_cost (t : Tuner) (coords : List String) (dr : ℚ)
    (h : t.search_space.all (fun kp => kp.2.isRange) = true) :
    ∀ (fuel : ℕ) (a : ℚ) (cfg : Config) (cs : ℚ) (s : TunerState),
      s.cost ≤ t.budget + 10 →
      (tune_loop t coords dr fuel a cfg cs s).state.cost ≤ t.budget + 10 := by
  intro fuel
  induction fuel with
  | zero => intro a cfg cs s hs; exact hs
  | succ n ih =>
    intro a cfg cs s hs
    simp only [tune_loop]
    split
    · split
      · exact ih _ _ _ _ (sweep_round_cost t a h coords cfg cs false s hs)
      · split
        · exact sweep_round_cost t a h coords cfg cs false s hs
        · exact ih _ _ _ _ (sweep_round_cost t a h coords cfg cs false s hs)
    · exact hs

/-! ### Score monotonicity of `line_search` -/

theorem line_search_loop_score (t : Tuner) (p : String) (mn mx d cs : ℚ) :
    ∀ (fuel : ℕ) (cv ps : ℚ) (cfg : Config) (s : TunerState),
      ¬ worse t.maximize ps cs →
      ¬ worse t.maximize (line_search_loop t p mn mx d cs fuel cv ps cfg s).score cs := by
  intro fuel
  induction fuel with
  | zero => intro cv ps cfg s h; exact h
  | succ n ih =>
    intro cv ps cfg s h
    simp only [line_search_loop]
    split
    · exact h
    · split
      · exact h
      · next hw => exact ih _ _ _ _ hw

theorem line_search_score (t : Tuner) (cfg : Config) (p : String) (eps : ℚ)
    (b : ℕ) (cs : ℚ) (s : TunerState) :
    ¬ worse t.maximize (line_search t cfg p eps b cs s).score cs := by
  simp only [line_search]
  split
  · exact not_worse_self _ _
  · split
    · split
      · exact not_worse_self _ _
      · next hw => exact line_search_loop_score t p _ _ _ cs _ _ _ _ _ hw
    · next hw => exact line_search_loop_score t p _ _ _ cs _ _ _ _ _ hw

/-! ### Frame and final stored value of `line_search` -/

theorem line_search_loop_frame (t : Tuner) (p : String) (mn mx d cs : ℚ) :
    ∀ (fuel : ℕ) (cv ps : ℚ) (cfg : Config) (s : TunerState) (k : String),
      k ≠ p →
      (line_search_loop t p mn mx d cs fuel cv ps cfg s).config k = cfg k := by
  intro fuel
  induction fuel with
  | zero => intro cv ps cfg s k _; rfl
  | succ n ih =>
    intro cv ps cfg s k hk
    simp only [line_search_loop]
    split
    · rfl
    · split
      · exact setParam_other cfg k p _ hk
      · rw [ih _ _ _ _ k hk]
        exact setParam_other cfg k p _ hk

theorem line_search_loop_stored (t : Tuner) (p : String) (mn mx d cs : ℚ) :
    ∀ (fuel : ℕ) (cv ps : ℚ) (cfg : Config) (s : TunerState),
      cfg p = cv →
      ((line_search_loop t p mn mx d cs fuel cv ps cfg s).config p
          = (line_search_loop t p mn mx d cs fuel cv ps cfg s).val ∨
        (line_search_loop t p mn mx d cs fuel cv ps cfg s).config p
          = (line_search_loop t p mn mx d cs fuel cv ps cfg s).val + d) := by
  intro fuel
  induction fuel with
  | zero => intro cv ps cfg s h; exact Or.inl h
  | succ n ih =>
    intro cv ps cfg s h
    simp only [line_search_loop]
    split
    · exact Or.inl h
    · split
      · refine Or.inr ?_
        show setParam cfg p (cv + d) p = cv + d - d + d
        rw [setParam_self]
        ring
      · exact ih _ _ _ _ (setParam_self cfg p _)

theorem tune_impl_pres (t : Tuner) (P : TunerState → Prop) (hP : ECClosed t P)
    (hpush : ∀ s : TunerState, s.cost ≤ t.budget → P s → P (pushStart s))
    (opts : TuneOptions) (sample : Config) (fuel : ℕ) (s : TunerState)
    (h : P s) : P (tune_impl t opts sample fuel s).state := by
  unfold tune_impl
  split
  · dsimp only
    split
    · split
      · exact h
      · exact tune_loop_pres t P hP hpush _ _ _ _ _ _ _ (hP _ _ h)
    · split
      · exact tune_loop_pres t P hP hpush _ _ _ _ _ _ _ (hP _ _ h)
      · exact h
  · exact h

/-! ### Sorting and initialization -/

theorem mem_insertSorted (k a : String) :
    ∀ l : List String, k ∈ insertSorted a l ↔ k = a ∨ k ∈ l := by
  intro l
  induction l with
  | nil => simp [insertSorted]
  | cons b rest ih =>
    simp only [insertSorted]
    split
    · simp only [List.mem_cons, ih]
      tauto
    · simp [List.mem_cons]

theorem mem_sortKeys (k : String) : ∀ l : List String, k ∈ sortKeys l ↔ k ∈ l := by
  intro l
  induction l with
  | nil => simp [sortKeys]
  | cons a rest ih =>
    simp [sortKeys, mem_insertSorted, ih]

/-- If any coordinate of the list maps to a discrete (Python list)
parameter, the `'average'` initializer runs into the out-of-scope `k`
and fails. -/
theorem averageInit_error (space : List (String × ParamSpec)) (cs : List ℚ) :
    ∀ (l : List String) (cfg : Config) (k : String),
      k ∈ l → lookupParam space k = ParamSpec.discrete cs →
      averageInit space l cfg = Except.error InitError.nameError := by
  intro l
  induction l with
  | nil =>
    intro cfg k hk _
    exact absurd hk (List.not_mem_nil k)
  | cons c rest ih =>
    intro cfg k hk hp
    rcases List.mem_cons.mp hk with rfl | hmem
    · simp only [averageInit, hp]
    · cases hc : lookupParam space c with
      | discrete l => simp only [averageInit, hc]
      | range mn mx =>
        simp only [averageInit, hc]
        exact ih _ k hmem hp
      | dictNoRange =>
        simp only [averageInit, hc]
        exact ih _ k hmem hp
      | otherShape =>
        simp only [averageInit, hc]
        exact ih _ k hmem hp

/-! ### Best-result tracking through the pipeline -/

theorem TrackInv_closed (t : Tuner) : ECClosed t (TrackInv t) := by
  intro c s h
  constructor
  · show bestStep t.maximize s.best (c, t.score_fn c)
      = trackedBest t.maximize (s.trace ++ [(c, t.score_fn c)])
    rw [trackedBest_append, h.1]
  · exact bestStep_isSome _ _ _

theorem TrackInv_after_eval (t : Tuner) (c : Config) (s : TunerState)
    (h : s.best = trackedBest t.maximize s.trace) :
    TrackInv t (evaluate_config t c s).2 := by
  constructor
  · show bestStep t.maximize s.best (c, t.score_fn c)
      = trackedBest t.maximize (s.trace ++ [(c, t.score_fn c)])
    rw [trackedBest_append, h]
  · exact bestStep_isSome _ _ _

theorem tune_impl_TrackInv (t : Tuner) (opts : TuneOptions) (sample : Config)
    (fuel : ℕ) :
    ((tune_impl t opts sample fuel initState).outcome).isFinished = true →
    TrackInv t (tune_impl t opts sample fuel initState).state := by
  unfold tune_impl
  split
  · dsimp only
    split
    · split
      · intro h
        simp [TuneOutcome.isFinished] at h
      · intro _
        exact tune_loop_pres t (TrackInv t) (TrackInv_closed t)
          (fun s _ hs => hs) _ _ _ _ _ _ _
          (TrackInv_after_eval t _ initState rfl)
    · split
      · intro _
        exact tune_loop_pres t (TrackInv t) (TrackInv_closed t)
          (fun s _ hs => hs) _ _ _ _ _ _ _
          (TrackInv_after_eval t _ initState rfl)
      · intro h
        simp [TuneOutcome.isFinished] at h
  · intro h
    simp [TuneOutcome.isFinished] at h

/-! ### The claims -/

/-- C1: for every completed run of `tune_impl` (alpha and decay_rate
supplied, valid init_method), the final configuration and its score —
the last tracked best, i.e. the best-tracking fold over every evaluation
issued — are the return value of the call. -/
theorem tune_returns_tracked_best (t : Tuner) (opts : TuneOptions)
    (sample : Config) (fuel : ℕ)
    (h : ((tune t opts sample fuel).outcome).isFinished = true) :
    tune_return t opts sample fuel
      = trackedBest t.maximize (tune t opts sample fuel).state.trace
    ∧ (tune_return t opts sample fuel).isSome = true :=
  tune_impl_TrackInv t opts sample fuel h

unseal Rat.add Rat.mul Rat.sub Rat.inv in
theorem tune_returns_tracked_best_witness :
    ((tune tTiny optsTiny zeroConfig 1).outcome).isFinished = true
    ∧ (tune_return tTiny optsTiny zeroConfig 1
        = trackedBest tTiny.maximize (tune tTiny optsTiny zeroConfig 1).state.trace
      ∧ (tune_return tTiny optsTiny zeroConfig 1).isSome = true) :=
  ⟨by decide, tune_returns_tracked_best tTiny optsTiny zeroConfig 1 (by decide)⟩

unseal Rat.add Rat.mul Rat.sub Rat.inv in
/-- C2: the claim says `line_search` always returns a value inside
`[min, max]`.  On the range `[0, 10]` with `x = 9`, `epsilon = 1/5`
(so `delta = 2`) and a constant score, the first direction probe
evaluates `x = 11 > max` and the loop immediately stops at the boundary,
returning `11` — outside the range.  The code contradicts its own
docstring ("vary cur_param within the bounds of the search_space"). -/
theorem line_search_escapes_range :
    (line_search tLin cfgNine "x" (1/5) 10 0 initState).val = 11
    ∧ ¬ ((line_search tLin cfgNine "x" (1/5) 10 0 initState).val ≤ 10) := by
  decide

/-- C3: the score component returned by `line_search` is never worse
than the `cur_score` passed in: at least `cur_score` when maximizing,
at most `cur_score` when minimizing. -/
theorem line_search_score_no_worse (t : Tuner) (cfg : Config) (p : String)
    (eps : ℚ) (b : ℕ) (cs : ℚ) (s : TunerState) :
    (t.maximize = true → cs ≤ (line_search t cfg p eps b cs s).score)
    ∧ (t.maximize = false → (line_search t cfg p eps b cs s).score ≤ cs) :=
  not_worse_spec t.maximize _ cs (line_search_score t cfg p eps b cs s)

theorem line_search_score_no_worse_witness :
    tLin.maximize = true
    ∧ (0 : ℚ) ≤ (line_search tLin cfgNine "x" (1/5) 10 0 initState).score :=
  ⟨rfl, (line_search_score_no_worse tLin cfgNine "x" (1/5) 10 0 initState).1 rfl⟩

unseal Rat.add Rat.mul Rat.sub Rat.inv in
/-- C4 counterexample: with a sub-budget of `0`, `line_search` still
issues its two unconditional direction probes — 2 evaluations, more than
the supplied sub-budget allows. -/
theorem line_search_two_probes_despite_zero_budget :
    (line_search tBad cfgFive "x" (1/10) 0 0 initState).state.cost = 2
    ∧ ¬ ((line_search tBad cfgFive "x" (1/10) 0 0 initState).state.cost ≤ 0) := by
  decide

/-- C4 amended: `line_search` invokes `evaluate_config` at most
`max b 2` times — at most `b` whenever `b ≥ 2`, but the two direction
probes are issued without consulting the sub-budget. -/
theorem line_search_within_probe_padded_budget (t : Tuner) (cfg : Config)
    (p : String) (eps : ℚ) (b : ℕ) (cs : ℚ) (s : TunerState) :
    (line_search t cfg p eps b cs s).state.cost ≤ s.cost + max b 2 :=
  line_search_cost t cfg p eps b cs s

/-- C5: on a search space with only continuous (range) parameters, a
full run of `tune` issues at most `budget + 10` evaluations, whatever
the budget, the options, the random sample and the number of rounds. -/
theorem tune_cost_le_budget_plus_ten (t : Tuner) (opts : TuneOptions)
    (sample : Config) (fuel : ℕ)
    (h : t.search_space.all (fun kp => kp.2.isRange) = true) :
    (tune t opts sample fuel).state.cost ≤ t.budget + 10 := by
  unfold tune tune_impl
  split
  · dsimp only
    split
    · split
      · show initState.cost ≤ t.budget + 10
        show (0 : ℕ) ≤ t.budget + 10
        omega
      · refine tune_loop_cost t _ _ h _ _ _ _ _ ?_
        show ((evaluate_config t _ initState).2).cost ≤ t.budget + 10
        rw [evaluate_config_cost]
        show (0 : ℕ) + 1 ≤ t.budget + 10
        omega
    · split
      · refine tune_loop_cost t _ _ h _ _ _ _ _ ?_
        show ((evaluate_config t _ initState).2).cost ≤ t.budget + 10
        rw [evaluate_config_cost]
        show (0 : ℕ) + 1 ≤ t.budget + 10
        omega
      · show (0 : ℕ) ≤ t.budget + 10
        omega
  · show (0 : ℕ) ≤ t.budget + 10
    omega

theorem tune_cost_le_budget_plus_ten_witness :
    (tTiny.search_space.all (fun kp => kp.2.isRange)) = true
    ∧ (tune tTiny optsTiny zeroConfig 1).state.cost ≤ tTiny.budget + 10 :=
  ⟨by decide, tune_cost_le_budget_plus_ten tTiny optsTiny zeroConfig 1 (by decide)⟩

unseal Rat.add Rat.mul Rat.sub Rat.inv in
/-- C6 counterexample: on `tBudget` (budget 3) the initial evaluation
costs 1 and the sub-search on coordinate `a` costs 2 more, so the
sub-search on coordinate `b` is started when `cost = 3` has already
reached the budget — the guard `self.cost > self.budget` lets it
through, refuting "no new sub-search once cost has reached or exceeded
the budget". -/
theorem subsearch_started_at_exact_budget :
    3 ∈ (tune tBudget optsBudget zeroConfig 1).state.subStarts
    ∧ ¬ (3 < tBudget.budget) := by
  decide

/-- C6 amended: a per-coordinate sub-search is only ever started while
the consumed cost is at most (not strictly below) the budget; once cost
strictly exceeds the budget no new sub-search begins. -/
theorem subsearch_starts_at_most_budget (t : Tuner) (opts : TuneOptions)
    (sample : Config) (fuel : ℕ) :
    ∀ x ∈ (tune t opts sample fuel).state.subStarts, x ≤ t.budget := by
  refine tune_impl_pres t (fun st => ∀ x ∈ st.subStarts, x ≤ t.budget)
    ?_ ?_ opts sample fuel initState ?_
  · intro c s hs
    exact hs
  · intro s hle hs x hx
    rcases List.mem_append.mp hx with hx | hx
    · exact hs x hx
    · rw [List.mem_singleton.mp hx]
      exact hle
  · intro x hx
    simp [initState] at hx

unseal Rat.add Rat.mul Rat.sub Rat.inv in
theorem subsearch_starts_at_most_budget_witness :
    1 ∈ (tune tBudget optsBudget zeroConfig 1).state.subStarts
    ∧ 1 ≤ tBudget.budget :=
  ⟨by decide, subsearch_starts_at_most_budget tBudget optsBudget zeroConfig 1 1 (by decide)⟩

/-- C7: a call with `alpha` or `decay_rate` missing, or with an
`init_method` that is neither `"average"` nor `"random"`, aborts before
any evaluation (cost `0`, empty trace) and reports the fatal
configuration error — the outcome is one of the two printed-diagnostic
constructors, not a completed search. -/
theorem tune_fatal_options_abort (t : Tuner) (opts : TuneOptions)
    (sample : Config) (fuel : ℕ)
    (h : opts.alpha = none ∨ opts.decay_rate = none
      ∨ ∃ m, opts.init_method = some m ∧ m ≠ "average" ∧ m ≠ "random") :
    (tune t opts sample fuel).state.cost = 0
    ∧ (tune t opts sample fuel).state.trace = []
    ∧ ((tune t opts sample fuel).outcome).isConfigError = true := by
  unfold tune tune_impl
  rcases opts with ⟨oa, od, oi⟩
  dsimp only at h ⊢
  rcases h with rfl | h | ⟨m, hm, hma, hmr⟩
  · exact ⟨rfl, rfl, rfl⟩
  · rcases h with rfl
    cases oa with
    | none => exact ⟨rfl, rfl, rfl⟩
    | some a => exact ⟨rfl, rfl, rfl⟩
  · cases oa with
    | none => exact ⟨rfl, rfl, rfl⟩
    | some a =>
      cases od with
      | none => exact ⟨rfl, rfl, rfl⟩
      | some d =>
        subst hm
        dsimp only [Option.getD]
        rw [if_neg hma, if_neg hmr]
        exact ⟨rfl, rfl, rfl⟩

theorem tune_fatal_options_abort_witness :
    (optsNoAlpha.alpha = none ∨ optsNoAlpha.decay_rate = none
      ∨ ∃ m, optsNoAlpha.init_method = some m ∧ m ≠ "average" ∧ m ≠ "random")
    ∧ ((tune tTiny optsNoAlpha zeroConfig 1).state.cost = 0
      ∧ (tune tTiny optsNoAlpha zeroConfig 1).state.trace = []
      ∧ ((tune tTiny optsNoAlpha zeroConfig 1).outcome).isConfigError = true) :=
  ⟨Or.inl rfl, tune_fatal_options_abort tTiny optsNoAlpha zeroConfig 1 (Or.inl rfl)⟩

/-- C8: on any search space containing a discrete (list) parameter, a
run with the default `'average'` initializer reaches the initializer's
list branch, whose reference to the out-of-scope name `k` fails at run
time before any evaluation is issued. -/
theorem tune_average_discrete_name_error (t : Tuner) (opts : TuneOptions)
    (sample : Config) (fuel : ℕ) (k : String) (cs : List ℚ)
    (ha : opts.alpha.isSome = true) (hd : opts.decay_rate.isSome = true)
    (hi : opts.init_method = none ∨ opts.init_method = some "average")
    (hk : k ∈ t.search_space.map Prod.fst)
    (hp : lookupParam t.search_space k = ParamSpec.discrete cs) :
    (tune t opts sample fuel).outcome = TuneOutcome.initNameError
    ∧ (tune t opts sample fuel).state.cost = 0
    ∧ (tune t opts sample fuel).state.trace = [] := by
  have herr := averageInit_error t.search_space cs
    (sortKeys (t.search_space.map Prod.fst)) zeroConfig k
    ((mem_sortKeys k _).mpr hk) hp
  unfold tune tune_impl
  rcases opts with ⟨oa, od, oi⟩
  dsimp only at ha hd hi ⊢
  cases oa with
  | none => simp at ha
  | some a =>
    cases od with
    | none => simp at hd
    | some d =>
      dsimp only
      have hmeth : oi.getD "average" = "average" := by
        rcases hi with rfl | rfl <;> rfl
      rw [if_pos hmeth, herr]
      exact ⟨rfl, rfl, rfl⟩

theorem tune_average_discrete_name_error_witness :
    ("d" ∈ tMixed.search_space.map Prod.fst)
    ∧ ((tune tMixed optsMixed zeroConfig 3).outcome = TuneOutcome.initNameError
      ∧ (tune tMixed optsMixed zeroConfig 3).state.cost = 0
      ∧ (tune tMixed optsMixed zeroConfig 3).state.trace = []) :=
  ⟨by decide, tune_average_discrete_name_error tMixed optsMixed zeroConfig 3 "d" [1, 2]
    rfl rfl (Or.inl rfl) (by decide) rfl⟩

unseal Rat.add Rat.mul Rat.sub Rat.inv in
/-- C9 counterexample: on the range `[0, 10]` with `x = 5`,
`epsilon = 1/10` and a score that makes both direction probes worse,
`line_search` returns the original value `5` but leaves the passed-in
configuration at the second probe `x = 4` — the configuration does not
map the searched coordinate to the returned value. -/
theorem line_search_config_differs_from_returned :
    ¬ ((line_search tBad cfgFive "x" (1/10) 10 0 initState).config "x"
        = (line_search tBad cfgFive "x" (1/10) 10 0 initState).val) := by
  decide

/-- C9 amended: `line_search` leaves every other coordinate unchanged,
and leaves the searched coordinate at the last value it probed: the
returned value itself, or — on the backtracking returns — exactly one
`epsilon * (max - min)` step above or below it (the caller `tune_impl`
re-assigns the returned value afterwards). -/
theorem line_search_frame_and_value (t : Tuner) (cfg : Config) (p : String)
    (eps : ℚ) (b : ℕ) (cs : ℚ) (s : TunerState) (mn mx : ℚ)
    (h : lookupParam t.search_space p = ParamSpec.range mn mx) :
    (∀ k, k ≠ p → (line_search t cfg p eps b cs s).config k = cfg k)
    ∧ ((line_search t cfg p eps b cs s).config p = (line_search t cfg p eps b cs s).val
      ∨ (line_search t cfg p eps b cs s).config p
          = (line_search t cfg p eps b cs s).val + eps * (mx - mn)
      ∨ (line_search t cfg p eps b cs s).config p
          = (line_search t cfg p eps b cs s).val - eps * (mx - mn)) := by
  simp only [line_search, h, getRange]
  split
  · exact ⟨fun k _ => rfl, Or.inl rfl⟩
  · split
    · split
      · refine ⟨fun k hk => ?_, ?_⟩
        · show setParam (setParam cfg p _) p _ k = cfg k
          rw [setParam_other _ k p _ hk, setParam_other _ k p _ hk]
        · right
          right
          show setParam (setParam cfg p _) p (cfg p + -(eps * (mx - mn))) p
              = cfg p - eps * (mx - mn)
          rw [setParam_self]
          ring
      · refine ⟨fun k hk => ?_, ?_⟩
        · rw [line_search_loop_frame t p mn mx _ cs _ _ _ _ _ k hk,
            setParam_other _ k p _ hk, setParam_other _ k p _ hk]
        · rcases line_search_loop_stored t p mn mx (-(eps * (mx - mn))) cs (b - 2)
              _ _ _ _ (setParam_self _ p _) with h1 | h1
          · exact Or.inl h1
          · right
            right
            rw [h1]
            ring
    · refine ⟨fun k hk => ?_, ?_⟩
      · rw [line_search_loop_frame t p mn mx _ cs _ _ _ _ _ k hk,
          setParam_other _ k p _ hk]
      · rcases line_search_loop_stored t p mn mx (eps * (mx - mn)) cs (b - 1)
            _ _ _ _ (setParam_self _ p _) with h1 | h1
        · exact Or.inl h1
        · exact Or.inr (Or.inl h1)

theorem line_search_frame_and_value_witness :
    (lookupParam tBad.search_space "x" = ParamSpec.range 0 10)
    ∧ (line_search tBad cfgFive "x" (1/10) 10 0 initState).config "y" = cfgFive "y" :=
  ⟨rfl, (line_search_frame_and_value tBad cfgFive "x" (1/10) 10 0 initState 0 10 rfl).1
    "y" (by decide)⟩

/-- C10 counterexample: a parameter whose entry is a dict without
`range` is silently skipped by the sweep's continuous-vs-discrete
dispatch: the coordinate, score, changed flag and tuner state all come
back untouched — no error is reported for the unrecognized shape. -/
theorem sweep_silently_skips_dict_without_range :
    sweep_coordinate tNoRange 1 "p" zeroConfig 0 false initState
      = ⟨zeroConfig, 0, false, initState⟩ := rfl

/-- C10 amended: a parameter of unrecognized shape (neither a list nor a
dict with `range`) is silently skipped during the dispatch: the sweep
returns its inputs unchanged, spends no evaluation and reports
nothing. -/
theorem sweep_skips_unrecognized (t : Tuner) (a : ℚ) (c : String)
    (cfg : Config) (cs : ℚ) (ch : Bool) (s : TunerState)
    (h : (lookupParam t.search_space c).isUnrecognized = true) :
    sweep_coordinate t a c cfg cs ch s = ⟨cfg, cs, ch, s⟩ := by
  unfold sweep_coordinate
  split
  · next heq =>
    rw [heq] at h
    simp [ParamSpec.isUnrecognized] at h
  · next heq =>
    rw [heq] at h
    simp [ParamSpec.isUnrecognized] at h
  · rfl
  · rfl

theorem sweep_skips_unrecognized_witness :
    ((lookupParam tOtherShape.search_space "q").isUnrecognized = true)
    ∧ sweep_coordinate tOtherShape 2 "q" zeroConfig 1 true initState
      = ⟨zeroConfig, 1, true, initState⟩ :=
  ⟨rfl, sweep_skips_unrecognized tOtherShape 2 "q" zeroConfig 1 true initState rfl⟩

end Rekall
